import Mathlib

/-!
Shallow embedding of the Anonymizer backend (backend/logic/process_pdf.py and
backend/main.py): PDF text extraction, PII detection (spaCy model plus one
NRIC regex), set-union aggregation, and redaction with copy-through on an
empty target list.  External libraries (pdfplumber, spaCy, PyMuPDF) are
modelled as abstract parameters collected in a `PdfLib` structure; the control
flow of the repository functions themselves is translated faithfully.
-/

set_option autoImplicit false

namespace Anonymizer

/-- Geometric bounding box returned by the PyMuPDF text search. -/
structure Rect where
  x0 : Int
  y0 : Int
  x1 : Int
  y1 : Int
  deriving DecidableEq

/-- One page of a document opened with fitz (PyMuPDF): the search primitive
mapping a string to the bounding boxes of its exact occurrences, plus the
redaction rectangles already applied (flattened) on this page. -/
structure FitzPage where
  searchFor : String → List Rect
  applied : List Rect

/-- A fitz document is its ordered list of pages. -/
abbrev FitzDoc := List FitzPage

/-- Content of a file on disk: raw uploaded bytes, or a document serialized by
fitz doc.save (garbage collection and deflate abstracted away). -/
inductive File where
  | bytes : List Nat → File
  | savedDoc : FitzDoc → File

/-- The filesystem: a partial map from paths to file contents.
os.path.exists p holds exactly when the map is defined at p. -/
def FS := String → Option File

/-- Writing a file: shutil.copyfile targets and doc.save both go through this. -/
def FS.write (fs : FS) (p : String) (f : File) : FS :=
  fun q => if q = p then some f else fs q

/-- A named entity produced by the spaCy model: its literal text and its
label (entity.text and entity.label underscore in the source). -/
structure Ent where
  text : String
  label : String
  deriving DecidableEq

/-- The external libraries the repository calls into.  plumberOpen models
pdfplumber.open followed by per-page extract_text with x_tolerance 2: an
exception while opening, or per page either an exception or the extracted
text (empty string when the page has no extractable text, matching the falsy
check in the source).  nlp is the loaded spaCy model.  fitzOpen models
fitz.open. -/
structure PdfLib where
  plumberOpen : File → Except Unit (List (Except Unit String))
  nlp : String → List Ent
  fitzOpen : File → Except Unit FitzDoc

/-- PII_ENTITY_TYPES from process_pdf.py line 24. -/
def PII_ENTITY_TYPES : List String := ["PERSON", "GPE", "LOC", "ORG", "DATE"]

/-- Truthiness of an optional Python string: None and the empty string are
falsy; models the checks `if not text` and `if not extracted_text`. -/
def truthy : Option String → Bool
  | none => false
  | some s => s ≠ ""

/-- Models list(set(l)) from Python: duplicates collapsed by string equality
(the Python iteration order is unspecified hash order; only membership and
uniqueness are relied on anywhere). -/
def pySet (l : List String) : List String := l.dedup

/-! The text extractor, extract_text_from_pdf (process_pdf.py lines 51-101).
The loop body accumulates page text into full_text; a page raising an
exception aborts the whole with-block, which the except clause turns into
None. -/

/-- Loop of extract_text_from_pdf over pdf.pages: accumulate text of truthy
pages, each followed by a newline; an exception anywhere yields None for the
whole call (the try wraps the loop). -/
def extractLoop : List (Except Unit String) → String → Option String
  | [], acc => some acc
  | Except.error _ :: _, _ => none
  | Except.ok t :: rest, acc =>
      extractLoop rest (if t ≠ "" then acc ++ t ++ "\n" else acc)

/-- extract_text_from_pdf: returns None when the path does not exist, None
when pdfplumber raises, otherwise the concatenated page text. -/
def extract_text_from_pdf (lib : PdfLib) (fs : FS) (pdf_file_path : String) :
    Option String :=
  match fs pdf_file_path with
  | none => none
  | some f =>
    match lib.plumberOpen f with
    | Except.error _ => none
    | Except.ok pages => extractLoop pages ""

/-! The spaCy PII detector, find_pii_entities (process_pdf.py lines 122-153). -/

/-- find_pii_entities: empty list on falsy input, otherwise the deduplicated
texts of the model entities whose label is in PII_ENTITY_TYPES. -/
def find_pii_entities (lib : PdfLib) (text : Option String) : List String :=
  match text with
  | none => []
  | some t =>
    if t = "" then []
    else
      pySet (((lib.nlp t).filter (fun e => e.label ∈ PII_ENTITY_TYPES)).map
        (fun e => e.text))

/-! The regex NRIC detector, find_nric_matches (process_pdf.py lines 156-181),
with the fixed pattern [STFG] then seven digits then [A-Z] of line 28.
re.findall for this fixed-width groupless pattern returns the leftmost
non-overlapping matches scanning left to right. -/

/-- Membership in the character class [STFG]. -/
def isSTFG (c : Char) : Bool := c = 'S' || c = 'T' || c = 'F' || c = 'G'

/-- The nine-character NRIC window test: [STFG], seven digits, [A-Z].
The digit class is read as the ASCII digits 0-9 and the final class as the
ASCII uppercase letters, matching the pattern on ASCII text. -/
def nricWindow (a b c d e f g h i : Char) : Bool :=
  isSTFG a && b.isDigit && c.isDigit && d.isDigit && e.isDigit &&
    f.isDigit && g.isDigit && h.isDigit && i.isUpper

/-- Shape predicate on a whole string: exactly nine characters forming one
NRIC window (one letter of STFG, exactly seven digits, one uppercase letter). -/
def isNRICshape (s : String) : Bool :=
  match s.data with
  | [a, b, c, d, e, f, g, h, i] => nricWindow a b c d e f g h i
  | _ => false

/-- Window test at the head of a character list: true when the first nine
characters exist and form an NRIC window. -/
def nricAt : List Char → Bool
  | a :: b :: c :: d :: e :: f :: g :: h :: i :: _ =>
    nricWindow a b c d e f g h i
  | _ => false

/-- Scanner for re.findall of the NRIC pattern: the counter records how many
characters of an already-emitted match remain to be skipped (matches are
non-overlapping); at counter zero, a position where the window matches emits
the nine matched characters and skips the remaining eight, any other
position advances by one character. -/
def nricScanAux : Nat → List Char → List String
  | _, [] => []
  | Nat.succ k, _ :: rest => nricScanAux k rest
  | 0, a :: rest =>
    if nricAt (a :: rest) then
      String.mk ((a :: rest).take 9) :: nricScanAux 8 rest
    else
      nricScanAux 0 rest

/-- re.findall of the NRIC pattern over a character list: leftmost
non-overlapping matches, scanning left to right. -/
def nricFindall (l : List Char) : List String := nricScanAux 0 l

/-- find_nric_matches: empty list on falsy input, otherwise the deduplicated
findall matches. -/
def find_nric_matches (text : Option String) : List String :=
  match text with
  | none => []
  | some t => if t = "" then [] else pySet (nricFindall t.data)

/-! The aggregator: set(spacy_pii) union set(nric_pii), then list(...)
(main.py lines 90-91 and process_pdf.py lines 287-288). -/

/-- combine: Python set union of the two detector result lists, as a
duplicate-free list. -/
def combine (set_a set_b : List String) : List String := pySet (set_a ++ set_b)

/-! The redactor, redact_sensitive_text (process_pdf.py lines 185-259). -/

/-- Inner loop over text_list_to_redact on one page: empty strings are
skipped by the continue, every rectangle returned by the search is marked. -/
def pageSearchRects (page : FitzPage) (text_list_to_redact : List String) :
    List Rect :=
  text_list_to_redact.foldl
    (fun acc text => if text = "" then acc else acc ++ page.searchFor text) []

/-- One iteration of the page loop: gather the rectangles for every target,
apply the redactions for this page at once, count them. -/
def redactPage (page : FitzPage) (text_list_to_redact : List String) :
    FitzPage × Nat :=
  let rects := pageSearchRects page text_list_to_redact
  (FitzPage.mk page.searchFor (page.applied ++ rects), rects.length)

/-- The page loop of the redactor: pages processed in order, redactions of a
page flattened before the next page is touched; returns the final document
and redactions_made. -/
def redactDoc (doc : FitzDoc) (text_list_to_redact : List String) :
    FitzDoc × Nat :=
  doc.foldl
    (fun acc page =>
      let step := redactPage page text_list_to_redact
      (acc.1 ++ [step.1], acc.2 + step.2))
    ([], 0)

/-- redact_sensitive_text: failure when the input path does not exist; on an
empty target list, shutil.copyfile of the input to the output and success;
otherwise open with fitz (failure when that raises), run the page loop, and
save to the output path — the source saves identically whether
redactions_made is positive or zero, both branches reporting success.
Returns the success flag and the resulting filesystem. -/
def redact_sensitive_text (lib : PdfLib) (fs : FS)
    (input_pdf_path output_pdf_path : String)
    (text_list_to_redact : List String) : Bool × FS :=
  match fs input_pdf_path with
  | none => (false, fs)
  | some f =>
    if text_list_to_redact.isEmpty then
      (true, fs.write output_pdf_path f)
    else
      match lib.fitzOpen f with
      | Except.error _ => (false, fs)
      | Except.ok doc =>
        let result := redactDoc doc text_list_to_redact
        if 0 < result.2 then
          (true, fs.write output_pdf_path (File.savedDoc result.1))
        else
          (true, fs.write output_pdf_path (File.savedDoc result.1))

/-! The endpoint pipeline, anonymize_pdf_endpoint (main.py lines 78-99):
extract text, and when it is truthy run both detectors and combine, else an
empty target list; then call the redactor with that list. -/

/-- The redaction target set the endpoint hands to the redactor for one
uploaded file saved at the given temp input path. -/
def endpointTargets (lib : PdfLib) (fs : FS) (temp_input_path : String) :
    List String :=
  match extract_text_from_pdf lib fs temp_input_path with
  | none => []
  | some t =>
    if t = "" then []
    else combine (find_pii_entities lib (some t)) (find_nric_matches (some t))

/-- Specification-side formulation of the extractor output (section 4.1 of
the spec): the concatenation, in page order, of the text of each page
followed by a newline, where pages yielding no text contribute nothing.
Compared below against the accumulator loop translated from the source. -/
def pagesConcat : List String → String
  | [] => ""
  | t :: rest => if t ≠ "" then t ++ "\n" ++ pagesConcat rest else pagesConcat rest

/-! Concrete instances used to witness the theorems on small inputs. -/

/-- A spaCy model stub finding nothing. -/
def nlpNone : String → List Ent := fun _ => []

/-- A library whose pdfplumber open yields a single page of text and whose
fitz open yields a document with no pages. -/
def libOnePage : PdfLib :=
  PdfLib.mk (fun _ => Except.ok [Except.ok "John"]) nlpNone
    (fun _ => Except.ok [])

/-- A library whose pdfplumber open yields a document with zero pages. -/
def libNoPages : PdfLib :=
  PdfLib.mk (fun _ => Except.ok []) nlpNone (fun _ => Except.ok [])

/-- A filesystem with a single PDF at in.pdf. -/
def fsOne : FS := fun p => if p = "in.pdf" then some (File.bytes [37, 80]) else none

/-- The empty filesystem. -/
def fsEmpty : FS := fun _ => none

/-- A library whose pdfplumber open raises. -/
def libOpenFails : PdfLib :=
  PdfLib.mk (fun _ => Except.error ()) nlpNone (fun _ => Except.ok [])

/-- A library where the first page extracts fine and the second page raises
during extraction. -/
def libPageFails : PdfLib :=
  PdfLib.mk (fun _ => Except.ok [Except.ok "Jane", Except.error ()]) nlpNone
    (fun _ => Except.ok [])

/-- A fitz page on which every search finds nothing. -/
def pageNoHits : FitzPage := FitzPage.mk (fun _ => []) []

/-- A library whose fitz open yields one page with no search hits. -/
def libNoHits : PdfLib :=
  PdfLib.mk (fun _ => Except.ok []) nlpNone (fun _ => Except.ok [pageNoHits])

/-- A spaCy model stub returning two allow-listed entities and one entity
whose label is outside the allow-list. -/
def nlpDemo : String → List Ent := fun _ =>
  [Ent.mk "John Smith" "PERSON", Ent.mk "Singapore" "GPE",
   Ent.mk "blue" "COLOR"]

/-- A library carrying the demo spaCy model. -/
def libDemo : PdfLib :=
  PdfLib.mk (fun _ => Except.ok [Except.ok "John Smith lives in Singapore."])
    nlpDemo (fun _ => Except.ok [pageNoHits])

/-! Helper lemmas shared by the claim theorems. -/

/-- Writing a file makes it present at the written path. -/
theorem FS.write_self (fs : FS) (p : String) (f : File) :
    fs.write p f p = some f := by
  simp [FS.write]

/-- Membership in pySet is membership in the underlying list. -/
theorem mem_pySet (l : List String) (s : String) : s ∈ pySet l ↔ s ∈ l :=
  List.mem_dedup

/-- pySet output has no duplicates. -/
theorem nodup_pySet (l : List String) : (pySet l).Nodup :=
  List.nodup_dedup l

/-- C4 theorem. The aggregator is pure set union: membership in the combined
list is membership in either detector result, a string present in both
appears exactly once, and the combined list has no duplicates. -/
theorem combine_set_union (set_a set_b : List String) :
    (∀ s, s ∈ combine set_a set_b ↔ s ∈ set_a ∨ s ∈ set_b) ∧
    (∀ s, s ∈ set_a → s ∈ set_b → (combine set_a set_b).count s = 1) ∧
    (combine set_a set_b).Nodup := by
  refine ⟨fun s => ?_, fun s ha hb => ?_, nodup_pySet _⟩
  · rw [combine, mem_pySet, List.mem_append]
  · exact List.count_eq_one_of_mem (nodup_pySet _)
      ((mem_pySet _ s).2 (List.mem_append.2 (Or.inl ha)))

/-- C4 witness: the union of two concrete detector results, sharing one
string, contains that string exactly once and is duplicate-free. -/
theorem combine_set_union_witness :
    ("b" ∈ combine ["a", "b"] ["b", "c"] ↔
      "b" ∈ ["a", "b"] ∨ "b" ∈ ["b", "c"]) ∧
    (combine ["a", "b"] ["b", "c"]).count "b" = 1 ∧
    (combine ["a", "b"] ["b", "c"]).Nodup :=
  ⟨(combine_set_union ["a", "b"] ["b", "c"]).1 "b",
   (combine_set_union ["a", "b"] ["b", "c"]).2.1 "b" (by decide) (by decide),
   (combine_set_union ["a", "b"] ["b", "c"]).2.2⟩

/-- C8 theorem. When the input path does not exist the redactor returns
failure and leaves the filesystem untouched, whatever the target list: no
file is written to the output path. -/
theorem redact_missing_input_fails (lib : PdfLib) (fs : FS)
    (inp out : String) (targets : List String) (h : fs inp = none) :
    redact_sensitive_text lib fs inp out targets = (false, fs) := by
  simp [redact_sensitive_text, h]

/-- C8 witness: on the empty filesystem, redaction with a non-empty target
list fails and writes nothing. -/
theorem redact_missing_input_fails_witness :
    fsEmpty "a.pdf" = none ∧
    redact_sensitive_text libOnePage fsEmpty "a.pdf" "b.pdf" ["x"] =
      (false, fsEmpty) :=
  ⟨rfl, redact_missing_input_fails libOnePage fsEmpty "a.pdf" "b.pdf" ["x"] rfl⟩

/-- C10 theorem. The existence check precedes the empty-target branch: a
missing input path with an empty target list returns failure and performs no
copy-through (the filesystem is unchanged), so the empty-target copy-through
guarantee holds only when the input file exists. -/
theorem redact_existence_check_precedes_copy (lib : PdfLib) (fs : FS)
    (inp out : String) (h : fs inp = none) :
    redact_sensitive_text lib fs inp out [] = (false, fs) := by
  simp [redact_sensitive_text, h]

/-- C10 witness: missing input with empty target list on a concrete
filesystem returns failure, with no file copied. -/
theorem redact_existence_check_precedes_copy_witness :
    fsEmpty "c.pdf" = none ∧
    redact_sensitive_text libNoHits fsEmpty "c.pdf" "d.pdf" [] =
      (false, fsEmpty) :=
  ⟨rfl, redact_existence_check_precedes_copy libNoHits fsEmpty "c.pdf" "d.pdf" rfl⟩

/-- C9 theorem. Whenever the redactor reports success, a file is present at
the output path in the resulting filesystem: the byte copy in the
empty-target branch or the saved document otherwise. -/
theorem redact_success_implies_output_written (lib : PdfLib) (fs : FS)
    (inp out : String) (targets : List String)
    (h : (redact_sensitive_text lib fs inp out targets).1 = true) :
    ((redact_sensitive_text lib fs inp out targets).2 out).isSome = true := by
  unfold redact_sensitive_text at h ⊢
  match hin : fs inp with
  | none => simp [hin] at h
  | some f =>
    simp only [hin]
    by_cases he : targets.isEmpty
    · simp [he, FS.write_self]
    · simp only [he, if_false]
      match hop : lib.fitzOpen f with
      | Except.error e => simp [hin, he, hop] at h
      | Except.ok doc => simp [FS.write_self]

/-- C9 witness: a successful concrete empty-target redaction leaves a file at
the output path. -/
theorem redact_success_implies_output_written_witness :
    (redact_sensitive_text libOnePage fsOne "in.pdf" "out.pdf" []).1 = true ∧
    ((redact_sensitive_text libOnePage fsOne "in.pdf" "out.pdf" []).2
      "out.pdf").isSome = true :=
  ⟨by decide,
   redact_success_implies_output_written libOnePage fsOne "in.pdf" "out.pdf" []
     (by decide)⟩

/-- A list whose head passes the window test yields a shape-correct string
when its first nine characters are taken. -/
theorem nricAt_take_shape (l : List Char) (h : nricAt l = true) :
    isNRICshape (String.mk (l.take 9)) = true := by
  match l with
  | a :: b :: c :: d :: e :: f :: g :: h9 :: i :: rest =>
    simpa [isNRICshape, List.take] using h
  | [] | [_] | [_, _] | [_, _, _] | [_, _, _, _] | [_, _, _, _, _]
  | [_, _, _, _, _, _] | [_, _, _, _, _, _, _] | [_, _, _, _, _, _, _, _] =>
    simp [nricAt] at h

/-- Every string emitted by the findall scanner satisfies the NRIC shape. -/
theorem nricScanAux_shape (l : List Char) :
    ∀ k s, s ∈ nricScanAux k l → isNRICshape s = true := by
  induction l with
  | nil => intro k s hs; simp [nricScanAux] at hs
  | cons a rest ih =>
    intro k s hs
    match k with
    | Nat.succ k => exact ih k s hs
    | 0 =>
      rw [nricScanAux] at hs
      by_cases hw : nricAt (a :: rest) = true
      · rw [if_pos hw] at hs
        rcases List.mem_cons.1 hs with rfl | hs
        · exact nricAt_take_shape _ hw
        · exact ih 8 s hs
      · rw [if_neg hw] at hs
        exact ih 0 s hs

/-- C2 theorem. Every string returned by the pattern detector matches the
NRIC shape exactly (one of S, T, F, G; then exactly seven digits; then one
uppercase letter), no string violating the shape is returned, and the result
contains no duplicates. -/
theorem find_nric_matches_shape_nodup (text : Option String) :
    (∀ s ∈ find_nric_matches text, isNRICshape s = true) ∧
    (find_nric_matches text).Nodup := by
  constructor
  · intro s hs
    match text with
    | none => simp [find_nric_matches] at hs
    | some t =>
      by_cases ht : t = "" <;> simp [find_nric_matches, ht] at hs
      exact nricScanAux_shape t.data 0 s ((mem_pySet _ s).1 hs)
  · match text with
    | none => exact List.nodup_nil
    | some t =>
      by_cases ht : t = "" <;> simp [find_nric_matches, ht]
      exact nodup_pySet _

/-- C2 witness: the detector run on a concrete sentence returns the embedded
NRIC token, which satisfies the shape predicate. -/
theorem find_nric_matches_shape_nodup_witness :
    isNRICshape "S1234567A" = true ∧
    (find_nric_matches (some "ID: S1234567A.")).Nodup :=
  ⟨(find_nric_matches_shape_nodup (some "ID: S1234567A.")).1 "S1234567A"
     (by decide),
   (find_nric_matches_shape_nodup (some "ID: S1234567A.")).2⟩

/-- C7 theorem. The entity detector returns the empty set on absent or empty
text; on non-empty text a string is returned exactly when some model entity
has that text and a label in the fixed allow-list, and the result has no
duplicates — a string all of whose detections carry labels outside the list
is never returned. -/
theorem find_pii_entities_allowlist (lib : PdfLib) :
    find_pii_entities lib none = [] ∧
    find_pii_entities lib (some "") = [] ∧
    ∀ t, t ≠ "" →
      ((∀ s, s ∈ find_pii_entities lib (some t) ↔
          ∃ e ∈ lib.nlp t, e.text = s ∧ e.label ∈ PII_ENTITY_TYPES) ∧
       (find_pii_entities lib (some t)).Nodup) := by
  refine ⟨rfl, by simp [find_pii_entities], fun t ht => ⟨fun s => ?_, ?_⟩⟩
  · simp only [find_pii_entities, ht, if_false, mem_pySet, List.mem_map,
      List.mem_filter]
    constructor
    · rintro ⟨e, ⟨hmem, hlab⟩, htext⟩
      exact ⟨e, hmem, htext, by simpa using hlab⟩
    · rintro ⟨e, hmem, htext, hlab⟩
      exact ⟨e, ⟨hmem, by simpa using hlab⟩, htext⟩
  · simp only [find_pii_entities, ht, if_false]
    exact nodup_pySet _

/-- C7 witness: on the demo model the detector returns the allow-listed
person entity, and the result is duplicate-free; the witness existential
names the PERSON detection. -/
theorem find_pii_entities_allowlist_witness :
    "John Smith" ∈ find_pii_entities libDemo (some "John Smith lives in Singapore.") ∧
    (find_pii_entities libDemo (some "John Smith lives in Singapore.")).Nodup :=
  ⟨(((find_pii_entities_allowlist libDemo).2.2
      "John Smith lives in Singapore." (by decide)).1 "John Smith").2
    ⟨Ent.mk "John Smith" "PERSON", by decide, rfl, by decide⟩,
   ((find_pii_entities_allowlist libDemo).2.2
      "John Smith lives in Singapore." (by decide)).2⟩

/-- The extractor loop over pages all of which extract without raising equals
the specification-side concatenation, for any accumulator. -/
theorem extractLoop_ok (texts : List String) :
    ∀ acc, extractLoop (texts.map Except.ok) acc =
      some (acc ++ pagesConcat texts) := by
  induction texts with
  | nil => intro acc; simp [extractLoop, pagesConcat]
  | cons t rest ih =>
    intro acc
    by_cases ht : t = ""
    · simp [extractLoop, pagesConcat, ht, ih]
    · simp [extractLoop, pagesConcat, ht, ih, String.append_assoc]

/-- An exception while extracting any page makes the whole loop yield None,
whatever text was already accumulated: never a partial string. -/
theorem extractLoop_error (pages : List (Except Unit String))
    (h : Except.error () ∈ pages) : ∀ acc, extractLoop pages acc = none := by
  induction pages with
  | nil => simp at h
  | cons pe rest ih =>
    intro acc
    match pe with
    | Except.error e => rfl
    | Except.ok t =>
      have hr : Except.error () ∈ rest := by
        rcases List.mem_cons.1 h with hc | hr
        · exact absurd hc (by simp)
        · exact hr
      exact ih hr _

/-- C6 theorem. For a document that opens and whose pages all extract
without raising, the extracted text is the concatenation, in page order, of
the text of each page followed by a newline, pages yielding no text
contributing nothing; the operation succeeds whatever the page texts are. -/
theorem extract_concatenates_pages (lib : PdfLib) (fs : FS) (p : String)
    (f : File) (texts : List String) (h1 : fs p = some f)
    (h2 : lib.plumberOpen f = Except.ok (texts.map Except.ok)) :
    extract_text_from_pdf lib fs p = some (pagesConcat texts) := by
  simp only [extract_text_from_pdf, h1, h2, extractLoop_ok texts "",
    String.empty_append]

/-- C6 witness: a one-page document with text extracts to that text followed
by a newline. -/
theorem extract_concatenates_pages_witness :
    extract_text_from_pdf libOnePage fsOne "in.pdf" =
      some (pagesConcat ["John"]) ∧
    pagesConcat ["John"] = "John\n" :=
  ⟨extract_concatenates_pages libOnePage fsOne "in.pdf" (File.bytes [37, 80])
     ["John"] rfl rfl,
   by decide⟩

/-- C3 counterexample. A document with no pages is an extraction-failure case
of the claim, yet the extractor returns the empty string, not the absent
value: the file exists, pdfplumber yields zero pages, and the result is
some "" rather than none. -/
theorem extract_no_pages_not_absent :
    libNoPages.plumberOpen (File.bytes [37, 80]) = Except.ok [] ∧
    extract_text_from_pdf libNoPages fsOne "in.pdf" = some "" ∧
    extract_text_from_pdf libNoPages fsOne "in.pdf" ≠ none :=
  ⟨rfl, rfl, by decide⟩

/-- C3 theorem (amended). The extractor returns None when the file is
missing or when the library raises, at open or while extracting any page —
so never a partial string; a document with zero pages instead yields the
empty string, a falsy value treated as absent by every caller, not None.
The embedding is a total function: no exception reaches the caller. -/
theorem extract_failure_behavior (lib : PdfLib) (fs : FS) (p : String) :
    (fs p = none → extract_text_from_pdf lib fs p = none) ∧
    (∀ f, fs p = some f → lib.plumberOpen f = Except.error () →
      extract_text_from_pdf lib fs p = none) ∧
    (∀ f pages, fs p = some f → lib.plumberOpen f = Except.ok pages →
      Except.error () ∈ pages → extract_text_from_pdf lib fs p = none) ∧
    (∀ f, fs p = some f → lib.plumberOpen f = Except.ok [] →
      extract_text_from_pdf lib fs p = some "") := by
  refine ⟨fun h => ?_, fun f h1 h2 => ?_, fun f pages h1 h2 h3 => ?_,
    fun f h1 h2 => ?_⟩
  · rw [extract_text_from_pdf, h]
  · simp only [extract_text_from_pdf, h1, h2]
  · simp only [extract_text_from_pdf, h1, h2, extractLoop_error pages h3 ""]
  · simp only [extract_text_from_pdf, h1, h2, extractLoop]

/-- C3 witness: the four failure shapes on concrete inputs — missing file,
open raising, a page raising after a page already extracted, and a zero-page
document. -/
theorem extract_failure_behavior_witness :
    extract_text_from_pdf libOnePage fsEmpty "nope.pdf" = none ∧
    extract_text_from_pdf libOpenFails fsOne "in.pdf" = none ∧
    extract_text_from_pdf libPageFails fsOne "in.pdf" = none ∧
    extract_text_from_pdf libNoPages fsOne "in.pdf" = some "" :=
  ⟨(extract_failure_behavior libOnePage fsEmpty "nope.pdf").1 rfl,
   (extract_failure_behavior libOpenFails fsOne "in.pdf").2.1
     (File.bytes [37, 80]) rfl rfl,
   (extract_failure_behavior libPageFails fsOne "in.pdf").2.2.1
     (File.bytes [37, 80]) [Except.ok "Jane", Except.error ()] rfl rfl
     (by simp),
   (extract_failure_behavior libNoPages fsOne "in.pdf").2.2.2
     (File.bytes [37, 80]) rfl rfl⟩

/-- The per-page search fold ignores empty target strings: folding over the
full target list and over the list with empty strings filtered out agree,
from any accumulator. -/
theorem searchFold_skips_empty (page : FitzPage) :
    ∀ (targets : List String) (acc : List Rect),
      targets.foldl
        (fun acc text => if text = "" then acc else acc ++ page.searchFor text)
        acc =
      (targets.filter (fun t => t != "")).foldl
        (fun acc text => if text = "" then acc else acc ++ page.searchFor text)
        acc := by
  intro targets
  induction targets with
  | nil => intro acc; rfl
  | cons t rest ih =>
    intro acc
    by_cases ht : t = ""
    · have hb : (t != "") = false := by simpa using ht
      simp [List.foldl, List.filter_cons, hb, ht, ih]
    · have hb : (t != "") = true := by simpa using ht
      simp [List.foldl, List.filter_cons, hb, ht, ih]

/-- C5 theorem. For an existing input whose document opens, a non-empty
target list always ends in a save of the output file and a success report,
no matter how many occurrences the searches find (zero included — the source
saves identically in both the zero and the positive redaction count
branches); empty strings inside the target list are skipped and contribute
no rectangles. -/
theorem redact_nonempty_always_saves (lib : PdfLib) (fs : FS)
    (inp out : String) (targets : List String) (f : File) (doc : FitzDoc)
    (h1 : fs inp = some f) (h2 : targets ≠ [])
    (h3 : lib.fitzOpen f = Except.ok doc) :
    (redact_sensitive_text lib fs inp out targets).1 = true ∧
    (redact_sensitive_text lib fs inp out targets).2 out =
      some (File.savedDoc (redactDoc doc targets).1) ∧
    ∀ page, pageSearchRects page targets =
      pageSearchRects page (targets.filter (fun t => t != "")) := by
  have hne : targets.isEmpty = false := by
    simpa [List.isEmpty_iff] using h2
  refine ⟨?_, ?_, fun page => searchFold_skips_empty page targets []⟩ <;>
    simp [redact_sensitive_text, h1, h2, hne, h3, FS.write_self, ite_self]

/-- C5 witness: a concrete one-page document where the single target occurs
zero times is still saved, with success reported. -/
theorem redact_nonempty_always_saves_witness :
    (redact_sensitive_text libNoHits fsOne "in.pdf" "out.pdf" ["John"]).1 =
      true ∧
    (redact_sensitive_text libNoHits fsOne "in.pdf" "out.pdf" ["John"]).2
      "out.pdf" = some (File.savedDoc (redactDoc [pageNoHits] ["John"]).1) :=
  ⟨(redact_nonempty_always_saves libNoHits fsOne "in.pdf" "out.pdf" ["John"]
      (File.bytes [37, 80]) [pageNoHits] rfl (by decide) rfl).1,
   (redact_nonempty_always_saves libNoHits fsOne "in.pdf" "out.pdf" ["John"]
      (File.bytes [37, 80]) [pageNoHits] rfl (by decide) rfl).2.1⟩

/-- C1 counterexample. The claim quantifies over every input path, but on a
missing input path the empty-target call returns failure, not success: the
existence check precedes the copy-through branch. -/
theorem redact_empty_targets_missing_input_not_success :
    (redact_sensitive_text libOnePage fsEmpty "ghost.pdf" "copy.pdf" []).1 =
      false := rfl

/-- C1 theorem (amended). For every input path that exists on the filesystem
and every output path, the empty-target call byte-copies the input file to
the output path and returns success; and whenever extraction yields no
usable text (None or the empty string), the endpoint target set is empty, so
the endpoint redaction of such a document succeeds with a byte-identical
copy at the output path. -/
theorem redact_empty_targets_copy_through (lib : PdfLib) (fs : FS)
    (inp out : String) (f : File) (h : fs inp = some f) :
    ((redact_sensitive_text lib fs inp out []).1 = true ∧
     (redact_sensitive_text lib fs inp out []).2 out = some f) ∧
    (truthy (extract_text_from_pdf lib fs inp) = false →
      endpointTargets lib fs inp = [] ∧
      (redact_sensitive_text lib fs inp out (endpointTargets lib fs inp)).1 =
        true ∧
      (redact_sensitive_text lib fs inp out (endpointTargets lib fs inp)).2
        out = some f) := by
  have hcopy : (redact_sensitive_text lib fs inp out []).1 = true ∧
      (redact_sensitive_text lib fs inp out []).2 out = some f := by
    constructor <;> simp [redact_sensitive_text, h, FS.write_self]
  refine ⟨hcopy, fun hnt => ?_⟩
  have htgt : endpointTargets lib fs inp = [] := by
    match hext : extract_text_from_pdf lib fs inp with
    | none => simp [endpointTargets, hext]
    | some t =>
      have ht : t = "" := by simpa [truthy, hext] using hnt
      simp [endpointTargets, hext, ht]
  rw [htgt]
  exact ⟨rfl, hcopy⟩

/-- C1 witness: a zero-page concrete document extracts to the empty string,
the endpoint target set is empty, and the redactor copy-through leaves the
input bytes at the output path with success. -/
theorem redact_empty_targets_copy_through_witness :
    (redact_sensitive_text libNoPages fsOne "in.pdf" "out.pdf" []).1 = true ∧
    endpointTargets libNoPages fsOne "in.pdf" = [] ∧
    (redact_sensitive_text libNoPages fsOne "in.pdf" "out.pdf"
      (endpointTargets libNoPages fsOne "in.pdf")).2 "out.pdf" =
      some (File.bytes [37, 80]) :=
  ⟨(redact_empty_targets_copy_through libNoPages fsOne "in.pdf" "out.pdf"
      (File.bytes [37, 80]) rfl).1.1,
   ((redact_empty_targets_copy_through libNoPages fsOne "in.pdf" "out.pdf"
      (File.bytes [37, 80]) rfl).2 (by decide)).1,
   ((redact_empty_targets_copy_through libNoPages fsOne "in.pdf" "out.pdf"
      (File.bytes [37, 80]) rfl).2 (by decide)).2.2⟩

end Anonymizer
